import Mathlib

/-!
Verification of the cursor-status-bar core against its source
(`src/tauri/src-tauri/src`): the credential extractor (`token_extractor.rs`),
the usage aggregation engine and billing-period parsing (`cursor_api.rs`,
`models.rs`), and the refresh orchestrator (`lib.rs`).

Modelling conventions, used throughout:

* `f64` values (event costs, parsed timestamps) are modelled exactly: a
  finite float is an integer fraction (`Frac`), and NaN is tracked as a
  separate constructor of `FVal`.  Floating-point rounding is elided; no
  claim concerns numeric accuracy.  JSON cannot encode NaN or infinities,
  but the model keeps NaN so that the panic behaviour of the unwrapped
  `partial_cmp` in the sort can be stated.
* Instants (`DateTime<Utc>`) are integer milliseconds since the Unix epoch.
  Event timestamps are the result of Rust `"...".parse::<f64>()` on the
  event's decimal string: `none` models a parse failure (nonfinite parse
  results are folded into `none`; like a failure they end up attributed to
  the epoch through the saturating cast and the `from_timestamp_millis`
  range fallback).  Sub-millisecond precision is elided.
* Calls into external crates that parse text (`chrono`'s two string parsers,
  the `base64` decoder, `serde_json::from_slice`) are modelled as oracle
  function parameters; everything written in the repository itself is
  translated directly.
* A Rust function that can panic is modelled with an `Option` result,
  `none` meaning the panic.
* The iteration order of `std::collections::HashMap` is unspecified (its
  hasher is randomly seeded per map), so the order in which `by_model` is
  drained at `into_iter()` is modelled as an explicit `map_iter` parameter;
  theorems quantify over it under the hypothesis that it permutes the
  accumulated entries.
-/

namespace Cursor

/-- Exact value of a finite `f64`: the fraction `n / d` with `d > 0`. -/
structure Frac where
  n : Int
  d : Nat
  dpos : 0 < d
deriving DecidableEq

/-- The floating-point literal `0.0`. -/
def Frac.zero : Frac := ⟨0, 1, Nat.one_pos⟩

/-- Floating-point addition `+` on finite values (exact; rounding elided). -/
def Frac.add (a b : Frac) : Frac :=
  ⟨a.n * b.d + b.n * a.d, a.d * b.d, Nat.mul_pos a.dpos b.dpos⟩

/-- Floating-point division by the literal `100.0` (exact; rounding elided). -/
def Frac.div100 (a : Frac) : Frac :=
  ⟨a.n, a.d * 100, Nat.mul_pos a.dpos (by norm_num)⟩

/-- Strict order on finite float values, by cross multiplication. -/
def Frac.flt (a b : Frac) : Bool := a.n * b.d < b.n * a.d

/-- Non-strict order on finite float values, by cross multiplication. -/
def Frac.fle (a b : Frac) : Bool := a.n * b.d ≤ b.n * a.d

/-- Result of `Ord::cmp` on two finite (non-NaN) float values. -/
def Frac.fcompare (a b : Frac) : Ordering :=
  if Frac.flt a b then Ordering.lt
  else if Frac.flt b a then Ordering.gt
  else Ordering.eq

/-- An `f64` as stored in the aggregation: a finite value or NaN. -/
inductive FVal where
  | num (x : Frac)
  | nan
deriving DecidableEq

/-- Whether the float is a (finite) number rather than NaN. -/
def FVal.isNum : FVal → Bool
  | .num _ => true
  | .nan => false

/-- Floating addition; NaN propagates. -/
def fadd : FVal → FVal → FVal
  | .num a, .num b => .num (Frac.add a b)
  | _, _ => .nan

/-- Division of a float by `100.0` (the cents-to-dollars conversion); NaN
propagates. -/
def fdiv100 : FVal → FVal
  | .num a => .num (Frac.div100 a)
  | .nan => .nan

/-- Left fold of floating addition starting from `0.0`: the accumulation
order of the `+=` updates in the aggregation loop. -/
def fsum (l : List FVal) : FVal := l.foldl fadd (FVal.num Frac.zero)

/-- Model of `PartialOrd::partial_cmp` on `f64`: `none` exactly when either
side is NaN. -/
def fcmp : FVal → FVal → Option Ordering
  | .num a, .num b => some (Frac.fcompare a b)
  | _, _ => none

/-- IEEE-style `≤` on `f64`: false whenever either side is NaN. -/
def fle : FVal → FVal → Bool
  | .num a, .num b => Frac.fle a b
  | _, _ => false

/-! Calendar arithmetic mirroring the `chrono` types used by
`fetch_billing_period_start` and `DateTime::from_timestamp_millis`. -/

/-- Milliseconds per day. -/
def day_ms : Int := 86400000

/-- Smallest year representable by `chrono::NaiveDate` (`i32::MIN >> 13`). -/
def chrono_min_year : Int := -262144

/-- Largest year representable by `chrono::NaiveDate` (`i32::MAX >> 13`). -/
def chrono_max_year : Int := 262143

/-- Proleptic-Gregorian leap year test. -/
def is_leap (y : Int) : Bool := y % 4 == 0 && (y % 100 != 0 || y % 400 == 0)

/-- Number of days in month `m` of year `y`. -/
def days_in_month (y m : Int) : Int :=
  if m = 2 then (if is_leap y then 29 else 28)
  else if m = 4 ∨ m = 6 ∨ m = 9 ∨ m = 11 then 30
  else 31

/-- Days from the Unix epoch to the civil date `y-m-d` (Hinnant's
`days_from_civil`; the quotients after the era split are of nonnegative
values, so truncating division agrees with floor there). -/
def days_from_civil (y m d : Int) : Int :=
  let y' := if m ≤ 2 then y - 1 else y
  let era := Int.fdiv y' 400
  let yoe := y' - era * 400
  let mp := (m + 9) % 12
  let doy := (153 * mp + 2) / 5 + d - 1
  let doe := yoe * 365 + yoe / 4 - yoe / 100 + doy
  era * 146097 + doe - 719468

/-- Model of `NaiveDate::from_ymd_opt`, returning the epoch-day count:
`none` outside `chrono`'s representable year range or for an invalid
month/day. -/
def from_ymd_opt (y m d : Int) : Option Int :=
  if chrono_min_year ≤ y ∧ y ≤ chrono_max_year ∧
      1 ≤ m ∧ m ≤ 12 ∧ 1 ≤ d ∧ d ≤ days_in_month y m then
    some (days_from_civil y m d)
  else none

/-- Milliseconds of `chrono`'s minimum instant (`-262144-01-01T00:00:00`). -/
def chrono_min_millis : Int := day_ms * days_from_civil chrono_min_year 1 1

/-- Milliseconds of `chrono`'s maximum instant
(`262143-12-31T23:59:59.999...`), truncated to milliseconds. -/
def chrono_max_millis : Int := day_ms * days_from_civil chrono_max_year 12 31 + (day_ms - 1)

/-- Smallest `i64`. -/
def i64_min : Int := -(2 ^ 63)

/-- Largest `i64`. -/
def i64_max : Int := 2 ^ 63 - 1

/-- Rust saturating cast `as i64` applied to a parsed timestamp (the model
keeps timestamps integral, so only the saturation remains). -/
def as_i64 (v : Int) : Int := max i64_min (min i64_max v)

/-- Model of `DateTime::from_timestamp_millis`: defined exactly on
`chrono`'s representable range. -/
def from_timestamp_millis (ms : Int) : Option Int :=
  if chrono_min_millis ≤ ms ∧ ms ≤ chrono_max_millis then some ms else none

/-! Data model (`models.rs`). -/

/-- Per-event token usage (`models.rs`, `TokenUsage`). -/
structure TokenUsage where
  input_tokens : Option Int
  output_tokens : Option Int
  cache_write_tokens : Option Int
  cache_read_tokens : Option Int
  total_cents : Option FVal
deriving DecidableEq

/-- Sum of the four token counters, absent fields as 0
(`TokenUsage::total_tokens`). -/
def TokenUsage.total_tokens (t : TokenUsage) : Int :=
  t.input_tokens.getD 0 + t.output_tokens.getD 0 +
    t.cache_write_tokens.getD 0 + t.cache_read_tokens.getD 0

/-- One usage event (`models.rs`, `UsageEvent`).  The `timestamp` field
holds the result of `parse::<f64>()` on the event's decimal-string
timestamp; `none` models a failed parse. -/
structure UsageEvent where
  timestamp : Option Int
  model : Option String
  kind : Option String
  usage_based_costs : Option String
  is_token_based_call : Option Bool
  token_usage : Option TokenUsage
  is_chargeable : Option Bool
deriving DecidableEq

/-- Cost of an event in cents (`UsageEvent::cost_cents`): the nested
`totalCents` field, defaulting to `0.0`. -/
def UsageEvent.cost_cents (e : UsageEvent) : FVal :=
  (e.token_usage.bind TokenUsage.total_cents).getD (FVal.num Frac.zero)

/-- Token count of an event: `total_tokens` of the nested usage, absent
usage as 0 (`fetch_display_data`, lines 148-152). -/
def event_tokens (e : UsageEvent) : Int :=
  (e.token_usage.map TokenUsage.total_tokens).getD 0

/-- Per-model display row (`models.rs`, `LineItem`). -/
structure LineItem where
  model_name : String
  request_count : Int
  cost_dollars : FVal
  total_tokens : Int
deriving DecidableEq

/-- Requests/spend/tokens over one reporting window (`models.rs`,
`PeriodSummary`). -/
structure PeriodSummary where
  label : String
  requests : Int
  spend_dollars : FVal
  tokens : Int
deriving DecidableEq

/-- Aggregated snapshot sent to the frontend (`models.rs`,
`UsageDisplayData`).  `billing_period_start` is kept as the instant itself;
the source renders it with `to_rfc3339` when building the struct. -/
structure UsageDisplayData where
  total_requests : Int
  total_spend_dollars : FVal
  total_tokens : Int
  line_items : List LineItem
  billing_period_start : Int
  today : PeriodSummary
  last7_days : PeriodSummary
  last30_days : PeriodSummary
deriving DecidableEq

/-! Aggregation engine (`cursor_api.rs`, `fetch_display_data`, lines
118-226: the pure part after the two network fetches). -/

/-- Effective event instant (lines 154-157): parse failure yields `0.0`,
the value is cast `as i64` (saturating) and `from_timestamp_millis` falls
back to `DateTime::UNIX_EPOCH` out of range. -/
def event_date (e : UsageEvent) : Int :=
  let timestamp_ms : Int := e.timestamp.getD 0
  (from_timestamp_millis (as_i64 timestamp_ms)).getD 0

/-- Inclusion test `event_date >= bound` shared by the four accumulators. -/
def event_since (bound : Int) (e : UsageEvent) : Bool :=
  bound ≤ event_date e

/-- Fallback model name for events without one (line 146). -/
def model_key (e : UsageEvent) : String := e.model.getD "unknown"

/-- Accumulator entry per model: `(i32, f64, i64)` = (request count, cost
cents, tokens). -/
abbrev ModelAcc : Type := Int × FVal × Int

/-- One `by_model.entry(model).or_insert((0, 0.0, 0))` followed by the three
`+=` updates (lines 164-167), on the association-list view of the map.
Entries are kept in first-insertion order; the map's own iteration order is
applied separately by `map_iter`. -/
def bump_model : List (String × ModelAcc) → String → FVal → Int → List (String × ModelAcc)
  | [], key, cents, tokens => [(key, (0 + 1, fadd (FVal.num Frac.zero) cents, 0 + tokens))]
  | (k, acc) :: rest, key, cents, tokens =>
    if k = key then (k, (acc.1 + 1, fadd acc.2.1 cents, acc.2.2 + tokens)) :: rest
    else (k, acc) :: bump_model rest key cents tokens

/-- The `by_model` map after the event loop (lines 159-168): events at or
after the billing start, folded in input order. -/
def by_model (billing_start : Int) (events : List UsageEvent) : List (String × ModelAcc) :=
  events.foldl
    (fun m e =>
      if event_since billing_start e then
        bump_model m (model_key e) e.cost_cents (event_tokens e)
      else m)
    []

/-- One unsorted line item from an accumulator entry (lines 189-197):
cents are converted to dollars by dividing by `100.0`. -/
def line_items_of (m : List (String × ModelAcc)) : List LineItem :=
  m.map fun p =>
    { model_name := p.1
      request_count := p.2.1
      cost_dollars := fdiv100 p.2.2.1
      total_tokens := p.2.2.2 }

/-- The sort comparator of line 198:
`|a, b| b.cost_dollars.partial_cmp(&a.cost_dollars)` (descending by cost),
before the `.unwrap()`. -/
def cmp_li (a b : LineItem) : Option Ordering := fcmp b.cost_dollars a.cost_dollars

/-- Stable insertion of `a` into an already sorted list under `cmp_li`;
`none` models the panic of the `.unwrap()` when a comparison involves NaN. -/
def insert_li (a : LineItem) : List LineItem → Option (List LineItem)
  | [] => some [a]
  | b :: t =>
    match cmp_li a b with
    | none => none
    | some o =>
      if o = Ordering.gt then
        match insert_li a t with
        | none => none
        | some r => some (b :: r)
      else some (a :: b :: t)

/-- The stable sort of line 198 (`Vec::sort_by` is stable): `none` models
the panic on an incomparable (NaN) pair.  When every cost is non-NaN the
comparator is a total order, so any comparison-sort algorithm yields this
same stable result. -/
def sort_line_items : List LineItem → Option (List LineItem)
  | [] => some []
  | a :: t =>
    match sort_line_items t with
    | none => none
    | some s => insert_li a s

/-- One reporting-window summary (lines 170-185 accumulate, lines 208-225
package): requests, spend in dollars and tokens over the events with
`event_date >= bound`. -/
def bucket_summary (label : String) (bound : Int) (events : List UsageEvent) : PeriodSummary :=
  let evs := events.filter (event_since bound)
  { label := label
    requests := evs.length
    spend_dollars := fdiv100 (fsum (evs.map UsageEvent.cost_cents))
    tokens := (evs.map event_tokens).sum }

/-- The aggregation of `fetch_display_data` (lines 118-226) as a pure
function of the billing start, the capture instant `now`, the local
midnight `start_of_today` and the fetched events.  `map_iter` stands for
the unspecified `HashMap` iteration order applied at `into_iter()` (line
190); `none` models the sort panic of line 198. -/
def aggregate (billing_start now start_of_today : Int)
    (map_iter : List (String × ModelAcc) → List (String × ModelAcc))
    (events : List UsageEvent) : Option UsageDisplayData :=
  let seven_days_ago := now - 7 * day_ms
  let thirty_days_ago := now - 30 * day_ms
  let billing_events := events.filter (event_since billing_start)
  match sort_line_items (line_items_of (map_iter (by_model billing_start events))) with
  | none => none
  | some line_items =>
    some
      { total_requests := (line_items.map LineItem.request_count).sum
        total_spend_dollars := fdiv100 (fsum (billing_events.map UsageEvent.cost_cents))
        total_tokens := (billing_events.map event_tokens).sum
        line_items := line_items
        billing_period_start := billing_start
        today := bucket_summary "Today" start_of_today events
        last7_days := bucket_summary "Last 7 Days" seven_days_ago events
        last30_days := bucket_summary "Last 30 Days" thirty_days_ago events }

/-- Midnight starting the calendar month `local_year-local_month`,
interpreted as UTC wall-clock numbers with no offset applied
(`fetch_billing_period_start`, lines 50-56): `NaiveDate::from_ymd_opt(y, m,
1)` then `and_hms_opt(0, 0, 0)` (always midnight) then
`DateTime::from_naive_utc_and_offset(_, Utc)`.  `none` models the panic of
the `.unwrap()` when `from_ymd_opt` fails. -/
def month_start_fallback (local_year local_month : Int) : Option Int :=
  (from_ymd_opt local_year local_month 1).map (fun days => day_ms * days)

/-- The response-processing part of `fetch_billing_period_start` (lines
40-56): the optional `startOfMonth` field is tried against strict RFC-3339
(`parse_rfc3339`, modelling `DateTime::parse_from_rfc3339`) then against
the fractional-seconds pattern `%Y-%m-%dT%H:%M:%S%.fZ` (`parse_fractional`,
modelling `DateTime::parse_from_str`); if both fail or the field is absent,
the current local calendar month's start is used. -/
def fetch_billing_period_start (parse_rfc3339 parse_fractional : String → Option Int)
    (start_of_month : Option String) (local_year local_month : Int) : Option Int :=
  match start_of_month with
  | some s =>
    match parse_rfc3339 s with
    | some dt => some dt
    | none =>
      match parse_fractional s with
      | some dt => some dt
      | none => month_start_fallback local_year local_month
  | none => month_start_fallback local_year local_month

/-! Credential extractor (`token_extractor.rs`). -/

/-- Splitting on a single character, as Rust `str::split(char)`: the empty
string yields `[""]`, and separators at the ends yield empty segments. -/
def splitCharAux (c : Char) : List Char → List Char → List String
  | [], acc => [String.mk acc.reverse]
  | x :: xs, acc =>
    if x = c then String.mk acc.reverse :: splitCharAux c xs []
    else splitCharAux c xs (x :: acc)

/-- Rust `jwt.split('.')` / `sub.split('|')`. -/
def splitChar (c : Char) (s : String) : List String :=
  splitCharAux c s.data []

/-- Error taxonomy of the extractor (`token_extractor.rs`, `TokenError`). -/
inductive TokenError where
  | DatabaseNotFound (path : String)
  | CannotOpen (msg : String)
  | QueryFailed (msg : String)
  | TokenNotFound
  | InvalidJwt
  | MissingSubClaim
deriving DecidableEq

/-- Display strings of the `thiserror` derive on `TokenError`. -/
def TokenError.message : TokenError → String
  | .DatabaseNotFound path => "Cursor database not found at: " ++ path
  | .CannotOpen msg => "Cannot open database: " ++ msg
  | .QueryFailed msg => "Query failed: " ++ msg
  | .TokenNotFound => "No auth token found in Cursor database. Are you logged in?"
  | .InvalidJwt => "Auth token is not a valid JWT"
  | .MissingSubClaim => "JWT missing 'sub' claim"

/-- Extractor result (`token_extractor.rs`, `TokenInfo`). -/
structure TokenInfo where
  session_token : String
  user_id : String
deriving DecidableEq

/-- A `serde_json::Value`. -/
inductive JsonVal where
  | null
  | bool (b : Bool)
  | num (x : Frac)
  | str (s : String)
  | arr (elems : List JsonVal)
  | obj (fields : List (String × JsonVal))

/-- `Value::index` by a string key (`payload["sub"]`): `Null` on a
non-object or a missing key.  Parsed objects carry distinct keys, so the
first match is the match. -/
def json_index (j : JsonVal) (key : String) : JsonVal :=
  match j with
  | .obj fields => (fields.lookup key).getD .null
  | _ => .null

/-- `Value::as_str`. -/
def json_as_str : JsonVal → Option String
  | .str s => some s
  | _ => none

/-- Oracles for the two external decoding crates used by the extractor:
`URL_SAFE_NO_PAD.decode` from `base64` (bytes as a list of naturals) and
`serde_json::from_slice`.  `none` models their `Err` results. -/
structure JwtOracle where
  base64url_decode : String → Option (List Nat)
  json_from_slice : List Nat → Option JsonVal

/-- Payload decoding of `extract_user_id_from_jwt` (lines 80-104): split on
dots, require at least two segments, base64url-decode the second, parse it
as JSON, read the `sub` claim, and keep the part after the first `|` (or
the whole claim when it has no `|`). -/
def extract_user_id_from_jwt (O : JwtOracle) (jwt : String) : Except TokenError String :=
  let parts := splitChar '.' jwt
  if parts.length < 2 then .error .InvalidJwt
  else
    match O.base64url_decode (parts.getD 1 "") with
    | none => .error .InvalidJwt
    | some payload_bytes =>
      match O.json_from_slice payload_bytes with
      | none => .error .InvalidJwt
      | some payload =>
        match json_as_str (json_index payload "sub") with
        | none => .error .MissingSubClaim
        | some sub => .ok ((splitChar '|' sub).getD 1 sub)

/-- The pure tail of `extract_token` (lines 69-75), given the JWT string
already read from the local database (the preceding steps are I/O: path
resolution, read-only open and the point query; their failures are the
`DatabaseNotFound`/`CannotOpen`/`QueryFailed`/`TokenNotFound` variants). -/
def extract_token (O : JwtOracle) (jwt_token : String) : Except TokenError TokenInfo :=
  match extract_user_id_from_jwt O jwt_token with
  | .error e => .error e
  | .ok user_id =>
    .ok { session_token := user_id ++ "%3A%3A" ++ jwt_token, user_id := user_id }

/-! Refresh orchestrator (`lib.rs`). -/

/-- Shared app state (`lib.rs`, `AppState`).  The `api` field models
`Option<CursorApi>`: the credentials the stored `CursorApi` was built
from. -/
structure AppState where
  api : Option TokenInfo
  last_data : Option UsageDisplayData
  error : Option String
deriving DecidableEq

/-- Tauri command `get_usage_data`: the latest published snapshot. -/
def get_usage_data (s : AppState) : Option UsageDisplayData := s.last_data

/-- Tauri command `get_error`: the latest published error. -/
def get_error (s : AppState) : Option String := s.error

/-- One refresh cycle (`lib.rs`, `do_refresh`, lines 51-109) as a state
transition.  `extract_result` is the outcome of this trigger's
`token_extractor::extract_token()` run; `fetch_display_data` is the fetch
performed by the `CursorApi` freshly constructed from those credentials,
with `Err` carrying the error's display string.  Tray-icon updates are UI
effects outside the model. -/
def do_refresh (extract_result : Except TokenError TokenInfo)
    (fetch_display_data : TokenInfo → Except String UsageDisplayData)
    (s : AppState) : AppState :=
  if s.api.isNone then s
  else
    match extract_result with
    | .error e =>
      { s with error := some ("Token error: " ++ e.message), last_data := none }
    | .ok info =>
      match fetch_display_data info with
      | .ok data => { s with last_data := some data, error := none }
      | .error e => { s with error := some ("API error: " ++ e) }

/-- Descending-cost order between successive line items: the later cost is
at most the earlier one (IEEE comparison, false on NaN). -/
def cost_desc (x y : LineItem) : Prop := fle y.cost_dollars x.cost_dollars = true

/-- Total of the per-model request counters of an accumulator. -/
def acc_count_sum (m : List (String × ModelAcc)) : Int :=
  (m.map (fun p => p.2.1)).sum

/-- Whether the event's timestamp string parses. -/
def ts_parses (e : UsageEvent) : Bool := e.timestamp.isSome

/-! Concrete inputs used by witnesses and counterexamples. -/

/-- Token usage worth `c` whole cents and 10 tokens. -/
def w_usage (c : Int) : TokenUsage :=
  { input_tokens := some 5, output_tokens := some 5, cache_write_tokens := none,
    cache_read_tokens := none, total_cents := some (FVal.num ⟨c, 1, Nat.one_pos⟩) }

/-- Event at instant `ts` (milliseconds) for model `name`, costing `c` cents. -/
def w_event (ts : Option Int) (name : Option String) (c : Int) : UsageEvent :=
  { timestamp := ts, model := name, kind := none, usage_based_costs := none,
    is_token_based_call := none, token_usage := some (w_usage c), is_chargeable := none }

/-- Event with an unparsable timestamp string and no usage record. -/
def w_event_bad : UsageEvent :=
  { timestamp := none, model := some "bad", kind := none, usage_based_costs := none,
    is_token_based_call := none, token_usage := none, is_chargeable := none }

/-- Oracle whose payload decodes to `{"sub": "auth0|u1"}` for segment "y". -/
def w_oracle : JwtOracle :=
  { base64url_decode := fun s => if s = "y" then some [1] else none,
    json_from_slice := fun bs =>
      if bs = [1] then some (JsonVal.obj [("sub", JsonVal.str "auth0|u1")]) else none }

/-- Two parsable events for distinct models with equal cost. -/
def w_events2 : List UsageEvent :=
  [w_event (some 1000) (some "a") 100, w_event (some 2000) (some "b") 100]

/-- Arbitrary placeholder snapshot for `Option.getD`. -/
def w_default : UsageDisplayData :=
  { total_requests := 0, total_spend_dollars := FVal.nan, total_tokens := 0,
    line_items := [], billing_period_start := 0,
    today := { label := "", requests := 0, spend_dollars := FVal.nan, tokens := 0 },
    last7_days := { label := "", requests := 0, spend_dollars := FVal.nan, tokens := 0 },
    last30_days := { label := "", requests := 0, spend_dollars := FVal.nan, tokens := 0 } }

/-- Aggregation of `w_events2` under the identity iteration order. -/
def w_d2 : UsageDisplayData :=
  (aggregate 0 (31 * day_ms) (30 * day_ms) id w_events2).getD w_default

/-- Aggregation of `w_events2` under the reversed iteration order. -/
def w_d2r : UsageDisplayData :=
  (aggregate 0 (31 * day_ms) (30 * day_ms) List.reverse w_events2).getD w_default

/-- An unparsable-timestamp event alongside a parsable one. -/
def w_events3 : List UsageEvent := [w_event_bad, w_event (some 1000) (some "a") 100]

/-- Aggregation of `w_events3`. -/
def w_d3 : UsageDisplayData :=
  (aggregate 0 (30 * day_ms + 1) 1 id w_events3).getD w_default

/-- Aggregation of `w_events3` restricted to its parsable events. -/
def w_d3p : UsageDisplayData :=
  (aggregate 0 (30 * day_ms + 1) 1 id (w_events3.filter ts_parses)).getD w_default

/-- Toy strict-RFC-3339 parser accepting exactly the string "r". -/
def w_parse1 : String → Option Int := fun s => if s = "r" then some 5 else none

/-- Toy fractional-seconds parser accepting exactly the string "f". -/
def w_parse2 : String → Option Int := fun s => if s = "f" then some 7 else none

/-- Concrete credentials. -/
def w_info : TokenInfo := { session_token := "t", user_id := "u" }

/-- Fetch that always fails. -/
def w_fetch_fail : TokenInfo → Except String UsageDisplayData :=
  fun _ => Except.error "boom"

/-- App state after a failed startup extraction: no API, a stale error. -/
def w_state_none : AppState :=
  { api := none, last_data := none,
    error := some "Token error: Cursor database not found at: /x" }

/-- App state with an initialized API and a published snapshot. -/
def w_state_ok : AppState :=
  { api := some w_info, last_data := some w_default, error := none }

/-! Theorems.  First the order lemmas for the line-item sort. -/

theorem Frac.fle_of_flt {x y : Frac} (h : x.flt y = true) : x.fle y = true := by
  simp only [Frac.flt, decide_eq_true_eq] at h
  simp only [Frac.fle, decide_eq_true_eq]
  omega

theorem Frac.fle_of_fcompare_ne_gt {x y : Frac} (h : x.fcompare y ≠ Ordering.gt) :
    x.fle y = true := by
  unfold Frac.fcompare at h
  by_cases h1 : x.flt y = true
  · exact Frac.fle_of_flt h1
  · by_cases h2 : y.flt x = true
    · simp [h1, h2] at h
    · simp only [Frac.flt, decide_eq_true_eq] at h2
      simp only [Frac.fle, decide_eq_true_eq]
      omega

theorem Frac.fle_of_fcompare_eq_gt {x y : Frac} (h : x.fcompare y = Ordering.gt) :
    y.fle x = true := by
  unfold Frac.fcompare at h
  by_cases h1 : x.flt y = true
  · simp [h1] at h
  · by_cases h2 : y.flt x = true
    · exact Frac.fle_of_flt h2
    · simp [h1, h2] at h

theorem Frac.fle_trans {x y z : Frac} (h1 : x.fle y = true) (h2 : y.fle z = true) :
    x.fle z = true := by
  simp only [Frac.fle, decide_eq_true_eq] at h1 h2 ⊢
  have hy : (0:Int) < y.d := by exact_mod_cast y.dpos
  have hx : (0:Int) < x.d := by exact_mod_cast x.dpos
  have hz : (0:Int) < z.d := by exact_mod_cast z.dpos
  nlinarith [mul_le_mul_of_nonneg_right h1 hz.le, mul_le_mul_of_nonneg_right h2 hx.le]

theorem fval_fle_trans {x y z : FVal} (h1 : fle x y = true) (h2 : fle y z = true) :
    fle x z = true := by
  cases x <;> cases y <;> cases z <;> simp [fle] at h1 h2 ⊢
  exact Frac.fle_trans h1 h2

theorem fcmp_isSome {x y : FVal} {o : Ordering} (h : fcmp x y = some o) :
    x.isNum = true ∧ y.isNum = true := by
  cases x <;> cases y <;> simp [fcmp, FVal.isNum] at h ⊢

theorem fle_of_fcmp_ne_gt {x y : FVal} {o : Ordering} (h : fcmp x y = some o)
    (hne : o ≠ Ordering.gt) : fle x y = true := by
  cases x <;> cases y <;> simp [fcmp] at h
  subst h
  exact Frac.fle_of_fcompare_ne_gt hne

theorem fle_of_fcmp_eq_gt {x y : FVal} (h : fcmp x y = some Ordering.gt) :
    fle y x = true := by
  cases x <;> cases y <;> simp [fcmp] at h
  exact Frac.fle_of_fcompare_eq_gt h

theorem insert_li_perm {a : LineItem} :
    ∀ {s r : List LineItem}, insert_li a s = some r → r.Perm (a :: s) := by
  intro s
  induction s with
  | nil =>
    intro r h
    simp only [insert_li, Option.some.injEq] at h
    subst h
    exact List.Perm.refl _
  | cons b t ih =>
    intro r h
    simp only [insert_li] at h
    cases hc : cmp_li a b with
    | none => simp [hc] at h
    | some o =>
      simp only [hc] at h
      by_cases ho : o = Ordering.gt
      · simp only [ho, reduceIte] at h
        cases hr : insert_li a t with
        | none => simp [hr] at h
        | some r' =>
          simp only [hr, Option.some.injEq] at h
          subst h
          exact (List.Perm.cons b (ih hr)).trans (List.Perm.swap a b t)
      · simp only [if_neg ho, Option.some.injEq] at h
        subst h
        exact List.Perm.refl _

theorem sort_line_items_perm :
    ∀ {l s : List LineItem}, sort_line_items l = some s → s.Perm l := by
  intro l
  induction l with
  | nil =>
    intro s h
    simp only [sort_line_items, Option.some.injEq] at h
    subst h
    exact List.Perm.refl _
  | cons a t ih =>
    intro s h
    simp only [sort_line_items] at h
    cases ht : sort_line_items t with
    | none => simp [ht] at h
    | some s' =>
      simp only [ht] at h
      exact (insert_li_perm h).trans (List.Perm.cons a (ih ht))

theorem insert_li_sorted {a : LineItem} :
    ∀ {s r : List LineItem}, s.Pairwise cost_desc → insert_li a s = some r →
      r.Pairwise cost_desc := by
  intro s
  induction s with
  | nil =>
    intro r _ h
    simp only [insert_li, Option.some.injEq] at h
    subst h
    exact List.pairwise_singleton _ _
  | cons b t ih =>
    intro r hs h
    simp only [insert_li] at h
    cases hc : cmp_li a b with
    | none => simp [hc] at h
    | some o =>
      simp only [hc] at h
      by_cases ho : o = Ordering.gt
      · simp only [ho, reduceIte] at h
        cases hr : insert_li a t with
        | none => simp [hr] at h
        | some r' =>
          simp only [hr, Option.some.injEq] at h
          subst h
          refine List.Pairwise.cons ?_ (ih hs.tail hr)
          intro x hx
          rcases List.mem_cons.mp ((insert_li_perm hr).mem_iff.mp hx) with hxa | hxt
          · subst hxa
            exact fle_of_fcmp_eq_gt (ho ▸ hc)
          · exact (List.pairwise_cons.mp hs).1 x hxt
      · simp only [if_neg ho, Option.some.injEq] at h
        subst h
        refine List.Pairwise.cons ?_ hs
        intro x hx
        rcases List.mem_cons.mp hx with hxb | hxt
        · subst hxb
          exact fle_of_fcmp_ne_gt hc ho
        · exact fval_fle_trans ((List.pairwise_cons.mp hs).1 x hxt) (fle_of_fcmp_ne_gt hc ho)

theorem sort_line_items_sorted :
    ∀ {l s : List LineItem}, sort_line_items l = some s → s.Pairwise cost_desc := by
  intro l
  induction l with
  | nil =>
    intro s h
    simp only [sort_line_items, Option.some.injEq] at h
    subst h
    exact List.Pairwise.nil
  | cons a t ih =>
    intro s h
    simp only [sort_line_items] at h
    cases ht : sort_line_items t with
    | none => simp [ht] at h
    | some s' =>
      simp only [ht] at h
      exact insert_li_sorted (ih ht) h

theorem insert_li_isSome {a : LineItem} (ha : a.cost_dollars.isNum = true) :
    ∀ {s : List LineItem}, (∀ x ∈ s, x.cost_dollars.isNum = true) →
      (insert_li a s).isSome = true := by
  intro s
  induction s with
  | nil => intro _; rfl
  | cons b t ih =>
    intro hall
    have hb : b.cost_dollars.isNum = true := hall b (by simp)
    have hsome : ∃ o, cmp_li a b = some o := by
      cases hcd : b.cost_dollars with
      | nan => rw [hcd] at hb; simp [FVal.isNum] at hb
      | num qb =>
        cases had : a.cost_dollars with
        | nan => rw [had] at ha; simp [FVal.isNum] at ha
        | num qa => exact ⟨Frac.fcompare qb qa, by simp [cmp_li, hcd, had, fcmp]⟩
    obtain ⟨o, hc⟩ := hsome
    simp only [insert_li, hc]
    by_cases ho : o = Ordering.gt
    · have hrec := ih (fun x hx => hall x (List.mem_cons_of_mem b hx))
      cases hr : insert_li a t with
      | none => rw [hr] at hrec; simp at hrec
      | some r => simp [ho, hr]
    · simp [ho]

theorem sort_line_items_isSome :
    ∀ {l : List LineItem}, (∀ x ∈ l, x.cost_dollars.isNum = true) →
      (sort_line_items l).isSome = true := by
  intro l
  induction l with
  | nil => intro _; rfl
  | cons a t ih =>
    intro hall
    simp only [sort_line_items]
    cases ht : sort_line_items t with
    | none =>
      have := ih (fun x hx => hall x (List.mem_cons_of_mem a hx))
      rw [ht] at this
      simp at this
    | some s' =>
      have hmem : ∀ x ∈ s', x.cost_dollars.isNum = true := fun x hx =>
        hall x (List.mem_cons_of_mem a ((sort_line_items_perm ht).mem_iff.mp hx))
      exact insert_li_isSome (hall a (by simp)) hmem

theorem aggregate_spec {bs now today : Int}
    {σ : List (String × ModelAcc) → List (String × ModelAcc)}
    {events : List UsageEvent} {d : UsageDisplayData}
    (h : aggregate bs now today σ events = some d) :
    sort_line_items (line_items_of (σ (by_model bs events))) = some d.line_items ∧
    d.total_requests = (d.line_items.map LineItem.request_count).sum ∧
    d.total_spend_dollars =
      fdiv100 (fsum ((events.filter (event_since bs)).map UsageEvent.cost_cents)) ∧
    d.total_tokens = ((events.filter (event_since bs)).map event_tokens).sum ∧
    d.billing_period_start = bs ∧
    d.today = bucket_summary "Today" today events ∧
    d.last7_days = bucket_summary "Last 7 Days" (now - 7 * day_ms) events ∧
    d.last30_days = bucket_summary "Last 30 Days" (now - 30 * day_ms) events := by
  simp only [aggregate] at h
  split at h
  · exact absurd h (by simp)
  · rename_i items heq
    rw [Option.some.injEq] at h
    subst h
    exact ⟨heq, rfl, rfl, rfl, rfl, rfl, rfl, rfl⟩

theorem acc_count_sum_perm {m1 m2 : List (String × ModelAcc)} (h : m1.Perm m2) :
    acc_count_sum m1 = acc_count_sum m2 :=
  (h.map _).sum_eq

theorem line_items_of_perm {m1 m2 : List (String × ModelAcc)} (h : m1.Perm m2) :
    (line_items_of m1).Perm (line_items_of m2) :=
  h.map _

theorem line_items_count_sum (m : List (String × ModelAcc)) :
    ((line_items_of m).map LineItem.request_count).sum = acc_count_sum m := by
  simp only [line_items_of, acc_count_sum, List.map_map]
  rfl

theorem bump_model_count (m : List (String × ModelAcc)) (key : String) (c : FVal) (tk : Int) :
    acc_count_sum (bump_model m key c tk) = acc_count_sum m + 1 := by
  induction m with
  | nil => simp [bump_model, acc_count_sum]
  | cons p t ih =>
    obtain ⟨k, acc⟩ := p
    by_cases hk : k = key
    · simp only [bump_model, if_pos hk, acc_count_sum, List.map_cons, List.sum_cons]
      simp only [acc_count_sum] at *
      ring
    · simp only [bump_model, if_neg hk, acc_count_sum, List.map_cons, List.sum_cons]
      simp only [acc_count_sum] at ih
      omega

theorem by_model_foldl_count (bs : Int) :
    ∀ (events : List UsageEvent) (m : List (String × ModelAcc)),
      acc_count_sum (events.foldl
        (fun m e =>
          if event_since bs e then
            bump_model m (model_key e) e.cost_cents (event_tokens e)
          else m) m) =
        acc_count_sum m + (events.countP (event_since bs) : Int) := by
  intro events
  induction events with
  | nil => intro m; simp
  | cons e t ih =>
    intro m
    simp only [List.foldl_cons, List.countP_cons]
    by_cases h : event_since bs e = true
    · rw [if_pos h, ih, bump_model_count]
      simp only [h, if_pos]
      push_cast
      ring
    · rw [if_neg h, ih]
      simp only [h]
      push_cast
      ring

theorem by_model_count (bs : Int) (events : List UsageEvent) :
    acc_count_sum (by_model bs events) = (events.countP (event_since bs) : Int) := by
  have := by_model_foldl_count bs events []
  simpa [by_model, acc_count_sum] using this

theorem fadd_isNum {x y : FVal} (hx : x.isNum = true) (hy : y.isNum = true) :
    (fadd x y).isNum = true := by
  cases x <;> cases y <;> simp [fadd, FVal.isNum] at *

theorem fdiv100_isNum {x : FVal} (hx : x.isNum = true) : (fdiv100 x).isNum = true := by
  cases x <;> simp [fdiv100, FVal.isNum] at *

theorem bump_model_cents_num :
    ∀ (m : List (String × ModelAcc)) (key : String) (cents : FVal) (tk : Int),
      (∀ p ∈ m, p.2.2.1.isNum = true) → cents.isNum = true →
      ∀ p ∈ bump_model m key cents tk, p.2.2.1.isNum = true := by
  intro m
  induction m with
  | nil =>
    intro key cents tk _ hc p hp
    simp only [bump_model, List.mem_singleton] at hp
    subst hp
    exact fadd_isNum rfl hc
  | cons q t ih =>
    intro key cents tk hm hc p hp
    obtain ⟨k, acc⟩ := q
    by_cases hk : k = key
    · simp only [bump_model, if_pos hk] at hp
      rcases List.mem_cons.mp hp with hph | hpt
      · subst hph
        exact fadd_isNum (hm (k, acc) (List.mem_cons_self _ _)) hc
      · exact hm p (List.mem_cons_of_mem _ hpt)
    · simp only [bump_model, if_neg hk] at hp
      rcases List.mem_cons.mp hp with hph | hpt
      · subst hph
        exact hm (k, acc) (List.mem_cons_self _ _)
      · exact ih key cents tk (fun x hx => hm x (List.mem_cons_of_mem _ hx)) hc p hpt

theorem by_model_cents_num (bs : Int) :
    ∀ (events : List UsageEvent) (m : List (String × ModelAcc)),
      (∀ e ∈ events, e.cost_cents.isNum = true) → (∀ p ∈ m, p.2.2.1.isNum = true) →
      ∀ p ∈ events.foldl
        (fun m e =>
          if event_since bs e then
            bump_model m (model_key e) e.cost_cents (event_tokens e)
          else m) m,
        p.2.2.1.isNum = true := by
  intro events
  induction events with
  | nil => intro m _ hm; exact hm
  | cons e t ih =>
    intro m hev hm
    simp only [List.foldl_cons]
    by_cases h : event_since bs e = true
    · rw [if_pos h]
      exact ih _ (fun x hx => hev x (List.mem_cons_of_mem e hx))
        (bump_model_cents_num m _ _ _ hm (hev e (List.mem_cons_self e t)))
    · rw [if_neg h]
      exact ih _ (fun x hx => hev x (List.mem_cons_of_mem e hx)) hm

/-- C1 (counterexample): the output order of line items is NOT deterministic
for a fixed input.  `w_events2` holds two events for distinct models with
equal cost; both `id` and `List.reverse` are legitimate iteration orders of
the same `by_model` accumulator (the second conjunct shows `List.reverse`
permutes it), yet the two runs return different `UsageDisplayData` — the
equal-cost line items come out in different orders, exactly as the
randomly-seeded `HashMap` iteration order may produce across runs. -/
theorem claim_c1_cex :
    (List.reverse (by_model 0 w_events2)).Perm (by_model 0 w_events2) ∧
    aggregate 0 (31 * day_ms) (30 * day_ms) List.reverse w_events2 ≠
      aggregate 0 (31 * day_ms) (30 * day_ms) id w_events2 :=
  ⟨by decide, by decide⟩

/-- C1 (amended): for every input event sequence and every `HashMap`
iteration order, the line items of the returned snapshot are sorted by
`costDollars` in descending order, and the multiset of line items is
determined by the input (any two iteration orders yield permutations of
each other); the relative order of equal-cost line items, however, depends
on the unspecified iteration order, so it is deterministic only for a fixed
iteration order, not across runs (see `claim_c1_cex`). -/
theorem claim_c1 (bs now today : Int)
    (σ σ' : List (String × ModelAcc) → List (String × ModelAcc))
    (events : List UsageEvent) (d d' : UsageDisplayData)
    (hσ : (σ (by_model bs events)).Perm (by_model bs events))
    (hσ' : (σ' (by_model bs events)).Perm (by_model bs events))
    (hd : aggregate bs now today σ events = some d)
    (hd' : aggregate bs now today σ' events = some d') :
    d.line_items.Pairwise cost_desc ∧ d'.line_items.Perm d.line_items := by
  obtain ⟨hs, -, -, -, -, -, -, -⟩ := aggregate_spec hd
  obtain ⟨hs', -, -, -, -, -, -, -⟩ := aggregate_spec hd'
  refine ⟨sort_line_items_sorted hs, ?_⟩
  exact ((sort_line_items_perm hs').trans
    ((line_items_of_perm hσ').trans
      ((line_items_of_perm hσ.symm).trans (sort_line_items_perm hs).symm)))

/-- Witness for C1 (amended) at the counterexample input: the identity and
reversed iteration orders both yield descending line items that permute
each other. -/
theorem claim_c1_w :
    w_d2.line_items.Pairwise cost_desc ∧ w_d2r.line_items.Perm w_d2.line_items :=
  claim_c1 0 (31 * day_ms) (30 * day_ms) id List.reverse w_events2 w_d2 w_d2r
    (by decide) (by decide) (by decide) (by decide)

theorem agg_total_requests {bs now today : Int}
    {σ : List (String × ModelAcc) → List (String × ModelAcc)}
    {events : List UsageEvent} {d : UsageDisplayData}
    (hσ : (σ (by_model bs events)).Perm (by_model bs events))
    (hd : aggregate bs now today σ events = some d) :
    d.total_requests = (events.countP (event_since bs) : Int) := by
  obtain ⟨hs, hreq, -, -, -, -, -, -⟩ := aggregate_spec hd
  rw [hreq]
  calc (d.line_items.map LineItem.request_count).sum
      = ((line_items_of (σ (by_model bs events))).map LineItem.request_count).sum :=
        ((sort_line_items_perm hs).map _).sum_eq
    _ = acc_count_sum (σ (by_model bs events)) := line_items_count_sum _
    _ = acc_count_sum (by_model bs events) := acc_count_sum_perm hσ
    _ = (events.countP (event_since bs) : Int) := by_model_count bs events

/-- C2: for every input event sequence (and every iteration order of the
per-model map), the `totalRequests` field of the returned snapshot equals
the sum of `requestCount` over all line items, and both equal the number of
events whose effective (parsed-with-fallbacks) event time is at or after
`billingStart`. -/
theorem claim_c2 (bs now today : Int)
    (σ : List (String × ModelAcc) → List (String × ModelAcc))
    (events : List UsageEvent) (d : UsageDisplayData)
    (hσ : (σ (by_model bs events)).Perm (by_model bs events))
    (hd : aggregate bs now today σ events = some d) :
    d.total_requests = (d.line_items.map LineItem.request_count).sum ∧
    d.total_requests = (events.countP (event_since bs) : Int) := by
  obtain ⟨-, hreq, -, -, -, -, -, -⟩ := aggregate_spec hd
  exact ⟨hreq, agg_total_requests hσ hd⟩

/-- Witness for C2 at a concrete two-event input. -/
theorem claim_c2_w :
    w_d2.total_requests = (w_d2.line_items.map LineItem.request_count).sum ∧
    w_d2.total_requests = (w_events2.countP (event_since 0) : Int) :=
  claim_c2 0 (31 * day_ms) (30 * day_ms) id w_events2 w_d2 (by decide) (by decide)

/-- C10: the descending sort compares `costDollars` with an unwrapped
partial comparison; whenever every event's `totalCents` cost (as read by
`cost_cents`, with an absent field defaulting to `0.0`) is a non-NaN
number, every comparison the sort performs is defined, so the sort cannot
panic and the aggregation returns a snapshot. -/
theorem claim_c10 (bs now today : Int)
    (σ : List (String × ModelAcc) → List (String × ModelAcc))
    (events : List UsageEvent)
    (hσ : (σ (by_model bs events)).Perm (by_model bs events))
    (hnum : ∀ e ∈ events, e.cost_cents.isNum = true) :
    (aggregate bs now today σ events).isSome = true := by
  have hbm : ∀ p ∈ by_model bs events, p.2.2.1.isNum = true :=
    by_model_cents_num bs events [] hnum (by simp)
  have hσm : ∀ p ∈ σ (by_model bs events), p.2.2.1.isNum = true := fun p hp =>
    hbm p (hσ.mem_iff.mp hp)
  have hli : ∀ x ∈ line_items_of (σ (by_model bs events)), x.cost_dollars.isNum = true := by
    intro x hx
    simp only [line_items_of, List.mem_map] at hx
    obtain ⟨p, hp, rfl⟩ := hx
    exact fdiv100_isNum (hσm p hp)
  have hs := sort_line_items_isSome hli
  simp only [aggregate]
  split
  · rename_i heq
    rw [heq] at hs
    simp at hs
  · rfl

/-- Witness for C10 at a concrete two-event input with non-NaN costs. -/
theorem claim_c10_w :
    (aggregate 0 (31 * day_ms) (30 * day_ms) id w_events2).isSome = true :=
  claim_c10 0 (31 * day_ms) (30 * day_ms) id w_events2 (by decide) (by decide)

theorem event_date_none {e : UsageEvent} (h : e.timestamp = none) : event_date e = 0 := by
  simp only [event_date, h, Option.getD_none]
  decide

theorem timestamp_none_of_not_parses {a : UsageEvent} (h : (!(ts_parses a)) = true) :
    a.timestamp = none := by
  cases hcase : a.timestamp with
  | none => rfl
  | some v => simp [ts_parses, hcase] at h

theorem filter_since_parses {bound : Int} (events : List UsageEvent) (hb : 0 < bound) :
    (events.filter ts_parses).filter (event_since bound) = events.filter (event_since bound) := by
  rw [List.filter_filter]
  apply List.filter_congr
  intro a _
  cases hcase : a.timestamp with
  | some v => simp [ts_parses, hcase]
  | none =>
    have hdate : event_date a = 0 := event_date_none hcase
    have hfalse : event_since bound a = false := by
      simp only [event_since, hdate, decide_eq_false_iff_not]
      omega
    simp [hfalse]

theorem bucket_summary_filter {label : String} {bound : Int} {events : List UsageEvent}
    (hb : 0 < bound) :
    bucket_summary label bound (events.filter ts_parses) = bucket_summary label bound events := by
  simp only [bucket_summary]
  rw [filter_since_parses events hb]

theorem countP_split {α : Type} (p q : α → Bool) :
    ∀ l : List α,
      l.countP p = (l.filter q).countP p + (l.filter (fun a => !(q a))).countP p := by
  intro l
  induction l with
  | nil => simp
  | cons a t ih =>
    by_cases hq : q a = true <;> by_cases hp : p a = true <;>
      simp [List.countP_cons, List.filter_cons, hq, hp, ih] <;> omega

/-- C3: an event whose timestamp string fails to parse is attributed to the
Unix epoch instant (the aggregation does not abort); consequently, when
`now` is more than 30 days after the epoch (so the three trailing-window
bounds, including the local midnight `start_of_today`, are positive), such
events change none of the today / last-7-days / last-30-days summaries —
removing all unparsable events leaves those summaries identical — and they
are counted in the billing-period totals if and only if
`billingStart ≤ epoch`. -/
theorem claim_c3 (bs now today : Int)
    (σ σ' : List (String × ModelAcc) → List (String × ModelAcc))
    (events : List UsageEvent) (d d' : UsageDisplayData) (e : UsageEvent)
    (hσ : (σ (by_model bs events)).Perm (by_model bs events))
    (hσ' : (σ' (by_model bs (events.filter ts_parses))).Perm
      (by_model bs (events.filter ts_parses)))
    (hd : aggregate bs now today σ events = some d)
    (hd' : aggregate bs now today σ' (events.filter ts_parses) = some d')
    (hnow : 30 * day_ms < now) (htoday : 0 < today)
    (he : e ∈ events) (hts : e.timestamp = none) :
    event_date e = 0 ∧
    d.today = d'.today ∧ d.last7_days = d'.last7_days ∧ d.last30_days = d'.last30_days ∧
    (bs ≤ 0 →
      d.total_requests = d'.total_requests + (events.countP (fun x => !(ts_parses x)) : Int)) ∧
    (0 < bs → d.total_requests = d'.total_requests) := by
  have hday : day_ms = 86400000 := rfl
  obtain ⟨-, -, -, -, -, ht, h7, h30⟩ := aggregate_spec hd
  obtain ⟨-, -, -, -, -, ht', h7', h30'⟩ := aggregate_spec hd'
  have h1 := agg_total_requests hσ hd
  have h2 := agg_total_requests hσ' hd'
  have hsplit := countP_split (event_since bs) ts_parses events
  refine ⟨event_date_none hts, ?_, ?_, ?_, ?_, ?_⟩
  · rw [ht, ht']
    exact (bucket_summary_filter htoday).symm
  · rw [h7, h7']
    exact (bucket_summary_filter (by omega)).symm
  · rw [h30, h30']
    exact (bucket_summary_filter (by omega)).symm
  · intro hbs
    have hall : (events.filter (fun a => !(ts_parses a))).countP (event_since bs) =
        (events.filter (fun a => !(ts_parses a))).length := by
      rw [List.countP_eq_length]
      intro a ha
      have hnone : a.timestamp = none :=
        timestamp_none_of_not_parses (List.mem_filter.mp ha).2
      simp only [event_since, event_date_none hnone, decide_eq_true_eq]
      exact hbs
    have hlen : (events.filter (fun a => !(ts_parses a))).length =
        events.countP (fun x => !(ts_parses x)) := (List.countP_eq_length_filter _ events).symm
    rw [h1, h2]
    omega
  · intro hbs
    have hzero : (events.filter (fun a => !(ts_parses a))).countP (event_since bs) = 0 := by
      rw [List.countP_eq_zero]
      intro a ha
      have hnone : a.timestamp = none :=
        timestamp_none_of_not_parses (List.mem_filter.mp ha).2
      simp only [event_since, event_date_none hnone, decide_eq_true_eq]
      omega
    rw [h1, h2]
    omega

/-- Witness for C3 at a two-event input containing one unparsable-timestamp
event, with `billingStart` at the epoch. -/
theorem claim_c3_w :
    event_date w_event_bad = 0 ∧
    w_d3.today = w_d3p.today ∧ w_d3.last7_days = w_d3p.last7_days ∧
    w_d3.last30_days = w_d3p.last30_days ∧
    ((0:Int) ≤ 0 →
      w_d3.total_requests =
        w_d3p.total_requests + (w_events3.countP (fun x => !(ts_parses x)) : Int)) ∧
    ((0:Int) < 0 → w_d3.total_requests = w_d3p.total_requests) :=
  claim_c3 0 (30 * day_ms + 1) 1 id id w_events3 w_d3 w_d3p w_event_bad
    (by decide) (by decide) (by decide) (by decide) (by decide) (by decide) (by decide) rfl

/-- C4: when the `startOfMonth` field is absent, or present but rejected by
both date parsers, `fetch_billing_period_start` returns midnight at the
start of the current local calendar month interpreted as UTC wall-clock
numbers (no offset applied: the naive date is attached to `Utc` directly),
and this fallback never fails: for every real local clock date (month in
1..12, year within `chrono`'s representable range) the result is `some`. -/
theorem claim_c4 (p1 p2 : String → Option Int) (field : Option String) (y m : Int)
    (hm1 : 1 ≤ m) (hm2 : m ≤ 12)
    (hy1 : chrono_min_year ≤ y) (hy2 : y ≤ chrono_max_year)
    (hfield : field = none ∨ ∃ s, field = some s ∧ p1 s = none ∧ p2 s = none) :
    fetch_billing_period_start p1 p2 field y m = some (day_ms * days_from_civil y m 1) := by
  have hday1 : (1:Int) ≤ days_in_month y m := by
    unfold days_in_month
    split_ifs <;> norm_num
  have hfb : month_start_fallback y m = some (day_ms * days_from_civil y m 1) := by
    unfold month_start_fallback from_ymd_opt
    rw [if_pos ⟨hy1, hy2, hm1, hm2, le_refl 1, hday1⟩]
    rfl
  rcases hfield with h | ⟨s, hs, h1, h2⟩
  · rw [h]
    simpa [fetch_billing_period_start] using hfb
  · subst hs
    simpa [fetch_billing_period_start, h1, h2] using hfb

/-- Witness for C4: an unparsable field value falls back to 2024-05-01
midnight UTC. -/
theorem claim_c4_w :
    fetch_billing_period_start (fun _ => none) (fun _ => none) (some "garbage") 2024 5 =
      some (day_ms * days_from_civil 2024 5 1) :=
  claim_c4 (fun _ => none) (fun _ => none) (some "garbage") 2024 5
    (by decide) (by decide) (by decide) (by decide) (Or.inr ⟨"garbage", rfl, rfl, rfl⟩)

/-- C5: parsing the `startOfMonth` value is an ordered two-tier chain where
the first success wins: a value accepted by the strict RFC-3339 parser
yields that instant, and a value the RFC-3339 parser rejects but the
fractional-seconds-with-trailing-Z pattern accepts yields that parsed
instant rather than the calendar-month fallback. -/
theorem claim_c5 (p1 p2 : String → Option Int) (s1 s2 : String) (t1 t2 y m : Int)
    (h1 : p1 s1 = some t1) (h2a : p1 s2 = none) (h2b : p2 s2 = some t2) :
    fetch_billing_period_start p1 p2 (some s1) y m = some t1 ∧
    fetch_billing_period_start p1 p2 (some s2) y m = some t2 := by
  constructor
  · simp [fetch_billing_period_start, h1]
  · simp [fetch_billing_period_start, h2a, h2b]

/-- Witness for C5 with toy single-string parsers. -/
theorem claim_c5_w :
    fetch_billing_period_start w_parse1 w_parse2 (some "r") 2024 5 = some 5 ∧
    fetch_billing_period_start w_parse1 w_parse2 (some "f") 2024 5 = some 7 :=
  claim_c5 w_parse1 w_parse2 "r" "f" 5 7 2024 5 rfl rfl rfl

/-- C6: for every JWT whose decoded payload carries a string `sub` claim,
`extract_token` succeeds, `userId` is the segment after the first `|` of
the claim (and the whole claim verbatim when no `|` is present — not an
error), and `sessionToken` is exactly `userId` followed by the literal
separator `%3A%3A` followed by the full JWT. -/
theorem claim_c6 (O : JwtOracle) (jwt : String) (bytes : List Nat)
    (payload : JsonVal) (sub : String)
    (hlen : 2 ≤ (splitChar '.' jwt).length)
    (hdec : O.base64url_decode ((splitChar '.' jwt).getD 1 "") = some bytes)
    (hjson : O.json_from_slice bytes = some payload)
    (hsub : json_as_str (json_index payload "sub") = some sub) :
    extract_token O jwt =
      Except.ok
        { session_token := ((splitChar '|' sub).getD 1 sub) ++ "%3A%3A" ++ jwt,
          user_id := (splitChar '|' sub).getD 1 sub } ∧
    ((splitChar '|' sub).length = 1 → (splitChar '|' sub).getD 1 sub = sub) := by
  constructor
  · simp only [extract_token, extract_user_id_from_jwt]
    rw [if_neg (by omega)]
    simp only [hdec, hjson, hsub]
  · intro hone
    rw [List.getD_eq_getElem?_getD, List.getElem?_eq_none (by omega)]
    rfl

/-- Witness for C6: the spec example, `sub = "auth0|u1"` with
`jwt = "x.y.z"`, yields user id `"u1"` and cookie value `"u1%3A%3Ax.y.z"`. -/
theorem claim_c6_w :
    extract_token w_oracle "x.y.z" =
      Except.ok
        { session_token := ((splitChar '|' "auth0|u1").getD 1 "auth0|u1") ++ "%3A%3A" ++ "x.y.z",
          user_id := (splitChar '|' "auth0|u1").getD 1 "auth0|u1" } ∧
    ((splitChar '|' "auth0|u1").length = 1 →
      (splitChar '|' "auth0|u1").getD 1 "auth0|u1" = "auth0|u1") :=
  claim_c6 w_oracle "x.y.z" [1] (JsonVal.obj [("sub", JsonVal.str "auth0|u1")]) "auth0|u1"
    (by decide) rfl rfl rfl

/-- C7: credential extraction fails with `InvalidJwt` exactly when the
stored token has fewer than 2 dot-separated segments, or its second segment
fails base64url decoding, or the decoded bytes fail to parse as JSON; and
it fails with `MissingSubClaim` exactly when that chain succeeds but the
payload's `sub` claim is absent or not a string. -/
theorem claim_c7 (O : JwtOracle) (jwt : String) :
    (extract_token O jwt = Except.error TokenError.InvalidJwt ↔
      ((splitChar '.' jwt).length < 2 ∨
        (2 ≤ (splitChar '.' jwt).length ∧
          O.base64url_decode ((splitChar '.' jwt).getD 1 "") = none) ∨
        (∃ bytes, O.base64url_decode ((splitChar '.' jwt).getD 1 "") = some bytes ∧
          O.json_from_slice bytes = none))) ∧
    (extract_token O jwt = Except.error TokenError.MissingSubClaim ↔
      (2 ≤ (splitChar '.' jwt).length ∧
        ∃ bytes payload,
          O.base64url_decode ((splitChar '.' jwt).getD 1 "") = some bytes ∧
          O.json_from_slice bytes = some payload ∧
          json_as_str (json_index payload "sub") = none)) := by
  by_cases hlen : (splitChar '.' jwt).length < 2
  · have hval : extract_token O jwt = Except.error TokenError.InvalidJwt := by
      simp only [extract_token, extract_user_id_from_jwt]
      rw [if_pos hlen]
    rw [hval]
    refine ⟨⟨fun _ => Or.inl hlen, fun _ => rfl⟩, ⟨fun h => absurd h (by simp), ?_⟩⟩
    rintro ⟨h2, -⟩
    omega
  · cases hdec : O.base64url_decode ((splitChar '.' jwt).getD 1 "") with
    | none =>
      have hval : extract_token O jwt = Except.error TokenError.InvalidJwt := by
        simp only [extract_token, extract_user_id_from_jwt]
        rw [if_neg hlen]
        simp only [hdec]
      rw [hval]
      refine ⟨⟨fun _ => Or.inr (Or.inl ⟨by omega, rfl⟩), fun _ => rfl⟩,
        ⟨fun h => absurd h (by simp), ?_⟩⟩
      rintro ⟨-, bytes', payload', hb, -, -⟩
      exact Option.noConfusion hb
    | some bytes =>
      cases hjson : O.json_from_slice bytes with
      | none =>
        have hval : extract_token O jwt = Except.error TokenError.InvalidJwt := by
          simp only [extract_token, extract_user_id_from_jwt]
          rw [if_neg hlen]
          simp only [hdec, hjson]
        rw [hval]
        refine ⟨⟨fun _ => Or.inr (Or.inr ⟨bytes, rfl, hjson⟩), fun _ => rfl⟩,
          ⟨fun h => absurd h (by simp), ?_⟩⟩
        rintro ⟨-, bytes', payload', hb, hj, -⟩
        injection hb with hbb
        subst hbb
        rw [hjson] at hj
        exact Option.noConfusion hj
      | some payload =>
        cases hsub : json_as_str (json_index payload "sub") with
        | none =>
          have hval : extract_token O jwt = Except.error TokenError.MissingSubClaim := by
            simp only [extract_token, extract_user_id_from_jwt]
            rw [if_neg hlen]
            simp only [hdec, hjson, hsub]
          rw [hval]
          constructor
          · refine ⟨fun h => absurd h (by simp), ?_⟩
            rintro (h | ⟨-, h⟩ | ⟨bytes', hb, hj⟩)
            · omega
            · exact Option.noConfusion h
            · injection hb with hbb
              subst hbb
              rw [hjson] at hj
              exact Option.noConfusion hj
          · exact ⟨fun _ => ⟨by omega, bytes, payload, rfl, hjson, hsub⟩, fun _ => rfl⟩
        | some sub =>
          have hval : extract_token O jwt =
              Except.ok
                { session_token := ((splitChar '|' sub).getD 1 sub) ++ "%3A%3A" ++ jwt,
                  user_id := (splitChar '|' sub).getD 1 sub } := by
            simp only [extract_token, extract_user_id_from_jwt]
            rw [if_neg hlen]
            simp only [hdec, hjson, hsub]
          rw [hval]
          constructor
          · refine ⟨fun h => absurd h (by simp), ?_⟩
            rintro (h | ⟨-, h⟩ | ⟨bytes', hb, hj⟩)
            · omega
            · exact Option.noConfusion h
            · injection hb with hbb
              subst hbb
              rw [hjson] at hj
              exact Option.noConfusion hj
          · refine ⟨fun h => absurd h (by simp), ?_⟩
            rintro ⟨-, bytes', payload', hb, hj, hs⟩
            injection hb with hbb
            subst hbb
            rw [hjson] at hj
            injection hj with hjj
            subst hjj
            rw [hsub] at hs
            exact Option.noConfusion hs

/-- C8 (counterexample): the orchestrator does NOT re-run the credential
extractor on every trigger.  `w_state_none` is the state after a failed
startup extraction (`api` is `None`, a stale error is published); a later
refresh trigger returns immediately without consulting this trigger's
extraction outcome, so a failing extraction (`TokenNotFound` here) is not
published — the stale message remains instead of being replaced. -/
theorem claim_c8_cex :
    do_refresh (Except.error TokenError.TokenNotFound) w_fetch_fail w_state_none =
      w_state_none ∧
    w_state_none.error ≠
      some ("Token error: " ++ TokenError.message TokenError.TokenNotFound) :=
  ⟨rfl, by decide⟩

/-- C8 (amended): provided the API was initialized at startup (the stored
`api` is non-`None`), every refresh trigger behaves per the claim: a failed
extraction publishes the new error and clears any previously published
data; a successful extraction fetches with the freshly extracted
credentials (the outcome is exactly that of `fetch_display_data` on this
trigger's extraction result); and the outcome never depends on the
credentials cached in the state — two states differing only in the stored
credentials produce outcomes differing only in that stored field.  When
`api` is `None` (startup extraction failed), a trigger instead returns the
state unchanged without re-running extraction (see `claim_c8_cex`). -/
theorem claim_c8 (e : TokenError) (info : TokenInfo)
    (er : Except TokenError TokenInfo)
    (f : TokenInfo → Except String UsageDisplayData) (s : AppState)
    (c₁ c₂ : TokenInfo)
    (hapi : s.api.isNone = false) :
    do_refresh (Except.error e) f s =
      { s with error := some ("Token error: " ++ e.message), last_data := none } ∧
    do_refresh (Except.ok info) f s =
      (match f info with
        | Except.ok data => { s with last_data := some data, error := none }
        | Except.error msg => { s with error := some ("API error: " ++ msg) }) ∧
    do_refresh er f { s with api := some c₁ } =
      { do_refresh er f { s with api := some c₂ } with api := some c₁ } := by
  refine ⟨?_, ?_, ?_⟩
  · simp [do_refresh, hapi]
  · simp only [do_refresh, hapi, Bool.false_eq_true, if_false]
  · cases er with
    | error e' => simp [do_refresh]
    | ok i =>
      cases hf : f i with
      | ok data => simp [do_refresh, hf]
      | error msg => simp [do_refresh, hf]

/-- Witness for C8 (amended) on an initialized state with concrete
credentials and an always-failing fetch. -/
theorem claim_c8_w :
    do_refresh (Except.error TokenError.TokenNotFound) w_fetch_fail w_state_ok =
      { w_state_ok with
          error := some ("Token error: " ++ TokenError.message TokenError.TokenNotFound),
          last_data := none } ∧
    do_refresh (Except.ok w_info) w_fetch_fail w_state_ok =
      (match w_fetch_fail w_info with
        | Except.ok data => { w_state_ok with last_data := some data, error := none }
        | Except.error msg => { w_state_ok with error := some ("API error: " ++ msg) }) ∧
    do_refresh (Except.ok w_info) w_fetch_fail { w_state_ok with api := some w_info } =
      { do_refresh (Except.ok w_info) w_fetch_fail
          { w_state_ok with api := some { session_token := "t2", user_id := "u2" } } with
          api := some w_info } :=
  claim_c8 TokenError.TokenNotFound w_info (Except.ok w_info) w_fetch_fail w_state_ok
    w_info { session_token := "t2", user_id := "u2" } rfl

/-- C9: when credential extraction succeeds but the subsequent fetch fails,
the previously published snapshot is left unchanged — stale data remains
readable via `get_usage_data` — and only the `error` field of the shared
state is replaced with the new message. -/
theorem claim_c9 (info : TokenInfo) (f : TokenInfo → Except String UsageDisplayData)
    (s : AppState) (msg : String)
    (hapi : s.api.isNone = false) (hf : f info = Except.error msg) :
    do_refresh (Except.ok info) f s = { s with error := some ("API error: " ++ msg) } ∧
    get_usage_data (do_refresh (Except.ok info) f s) = get_usage_data s := by
  have h : do_refresh (Except.ok info) f s =
      { s with error := some ("API error: " ++ msg) } := by
    simp [do_refresh, hapi, hf]
  exact ⟨h, by rw [h]; rfl⟩

/-- Witness for C9: a failing fetch on a state holding a published
snapshot replaces only the error. -/
theorem claim_c9_w :
    do_refresh (Except.ok w_info) w_fetch_fail w_state_ok =
      { w_state_ok with error := some ("API error: " ++ "boom") } ∧
    get_usage_data (do_refresh (Except.ok w_info) w_fetch_fail w_state_ok) =
      get_usage_data w_state_ok :=
  claim_c9 w_info w_fetch_fail w_state_ok "boom" rfl rfl

end Cursor
